import Mathlib

/-!
Verification of the makaut_scraper engine (src/main.py) against its
natural-language specification.

The Python program is shallowly embedded:

* The outcome of one HTTP GET (`requests.Session.get` plus the status
  inspection in `AbstractDownloader._download`) is a `FetchResult`; the
  transport layer and the filesystem are modelled as oracles indexed by the
  numeric image id, since the URL built for an id determines the request.
* Mutable object state (`self.numDownloads`, the files written so far) is the
  record `DState`, threaded explicitly.
* A Python exception escaping `_download` (the unguarded `open`/`write`) is
  the `Except.error` branch, carrying the state at the moment of the raise.
* Worker threads are sequentialised: the only shared mutable cell is the
  lock-guarded counter (plus the filesystem), so the per-worker traces and the
  final counter value are interleaving-independent, and the claims below are
  about exactly those observables.
* Python's `str.format` is modelled generically (`pyFormat`), applied to the
  verbatim `URLFMT` template string of the source, and `str(n)` on a
  nonnegative integer is the decimal rendering `pyStr`.
-/

namespace Makaut

/-- Result of the transport round trip attempted by `_download`:
either a transport-level error (the bare `except:` branch) or a response
carrying a status code and an opaque body. -/
inductive FetchResult where
  | transportError : FetchResult
  | response (status : Nat) (body : Nat) : FetchResult
deriving DecidableEq, Repr

/-- Mutable downloader state: the files written so far (path, body), newest
first, and the shared success counter `self.numDownloads`. -/
structure DState where
  files : List (String × Nat)
  numDownloads : Nat
deriving DecidableEq, Repr

/-- A fetch-and-persist attempt succeeds iff the round trip completed with
status 200 and the write went through. -/
def succeeds : FetchResult → Bool → Bool
  | .transportError, _ => false
  | .response status _, wr => status == 200 && wr

/-- The attempt raises an uncaught exception iff the status was 200 (so the
write is attempted, outside any `try`) and the write fails. -/
def writeRaises : FetchResult → Bool → Bool
  | .transportError, _ => false
  | .response status _, wr => status == 200 && !wr

/-- Decimal digit character. -/
def digitChar (d : Nat) : Char := Char.ofNat (48 + d)

/-- Decimal rendering of a nonnegative integer, digit list form:
the model of Python `str(n)` / `f-string` interpolation for `n : Nat`. -/
def pyStrAux (n : Nat) : List Char :=
  if n < 10 then [digitChar n]
  else pyStrAux (n / 10) ++ [digitChar (n % 10)]
termination_by n
decreasing_by exact Nat.div_lt_self (by omega) (by omega)

/-- Model of Python `str(n)` for a nonnegative integer. -/
def pyStr (n : Nat) : String := (pyStrAux n).asString

/-- Model of `os.path.join` for a relative second component. -/
def pyJoin (a b : String) : String := a ++ "/" ++ b

/-- `os.path.basename(url)` for a scan url: the file `_download` saves id `i`
under (scan mode passes `name=None`, so the basename of the URL is used). -/
def scanImagename (i : Nat) : String := pyStr i ++ ".png"

/-- Full path `_download` writes to for scan id `i`. -/
def scanImagepath (dir : String) (i : Nat) : String := pyJoin dir (scanImagename i)

/-- `AbstractDownloader._download`, one fetch-and-persist attempt.
`fetch` is the transport outcome, `writeOk` whether the file write would
complete, `imagepath` the target path. Returns `.ok (state, result)` for a
normal return (`result` is Python's return value: the path or `None`), and
`.error state` when the unguarded write raises. -/
def download (fetch : FetchResult) (writeOk : Bool) (imagepath : String)
    (st : DState) : Except DState (DState × Option String) :=
  match fetch with
  | .transportError => .ok (st, none)
  | .response status body =>
    if status = 200 then
      if writeOk then
        .ok ({ files := (imagepath, body) :: st.files,
               numDownloads := st.numDownloads + 1 }, some imagepath)
      else .error st
    else .ok (st, none)

/-- Number of chunk starts Python's `range(l, u, w)` yields (for `w > 0`). -/
def numChunks (l u w : Nat) : Nat := (u - l + w - 1) / w

/-- Python `range(l, u, w)`: the chunk start offsets of `Downloader.run`. -/
def pyRangeStep (l u w : Nat) : List Nat := List.range' l (numChunks l u w) w

/-- The ids a worker spawned at `start` processes: Python
`range(start, start + per_thread)` via `generate_links`. -/
def chunkIds (start w : Nat) : List Nat := List.range' start w

/-- All ids processed by a scan run, chunk by chunk in spawn order. -/
def allScanIds (l u w : Nat) : List Nat :=
  (pyRangeStep l u w).flatMap (fun s => chunkIds s w)

/-- `Downloader._thread`: sequentially attempt every id of the chunk; an
uncaught exception terminates the worker. Returns the final state, the list
of ids actually attempted, and `some j` when the worker died raising at `j`. -/
def threadRun (f : Nat → FetchResult) (wr : Nat → Bool) (dir : String) :
    DState → List Nat → DState × List Nat × Option Nat
  | st, [] => (st, [], none)
  | st, i :: rest =>
    match download (f i) (wr i) (scanImagepath dir i) st with
    | .ok (st', _) =>
      let r := threadRun f wr dir st' rest
      (r.1, i :: r.2.1, r.2.2)
    | .error st' => (st', [i], some i)

/-- The observable trace (attempted ids, death point) of one worker; it is
independent of the shared state the worker starts from. -/
def threadTrace (f : Nat → FetchResult) (wr : Nat → Bool) (dir : String)
    (ids : List Nat) : List Nat × Option Nat :=
  (threadRun f wr dir ⟨[], 0⟩ ids).2

/-- `Downloader.run`: one worker per chunk start; workers sequentialised
(see the file header). Returns the final state and, per chunk in spawn
order, that worker's (attempted ids, death point). -/
def scanRun (f : Nat → FetchResult) (wr : Nat → Bool) (dir : String) (w : Nat) :
    DState → List Nat → DState × List (List Nat × Option Nat)
  | st, [] => (st, [])
  | st, s :: rest =>
    let t := threadRun f wr dir st (chunkIds s w)
    let r := scanRun f wr dir w t.1 rest
    (r.1, (t.2.1, t.2.2) :: r.2)

/-- `AbstractDownloader.MAX_OPEN_FILE`: the soft `RLIMIT_NOFILE` when the
`resource` module is importable, else the hardcoded 1200. -/
def MAX_OPEN_FILE (rlimitNofile : Option Nat) : Nat :=
  match rlimitNofile with
  | some l => l
  | none => 1200

/-- `Downloader.__call__`'s chunk width: `max(per_thread, MAX_OPEN_FILE)`. -/
def effectivePerThread (perThread maxOpenFile : Nat) : Nat :=
  max perThread maxOpenFile

/-- `AbstractDownloader.__call__`: resets the counter to 0, runs the
subclass hook, and returns the elapsed wall-clock seconds (time is external,
so the elapsed value is a parameter). -/
def abstractCall (elapsedSeconds : Nat) (runFn : DState → DState)
    (st : DState) : Nat × DState :=
  let st0 : DState := { st with numDownloads := 0 }
  (elapsedSeconds, runFn st0)

/-- `Downloader.__call__`: computes the effective chunk width, delegates to
`AbstractDownloader.__call__`, and — having no `return` statement — returns
Python `None` (the parent's return value is dropped). -/
def downloaderCall (elapsedSeconds : Nat) (perThread maxOpenFile : Nat)
    (runFn : Nat → DState → DState) (st : DState) : Option Nat × DState :=
  let w := effectivePerThread perThread maxOpenFile
  let r := abstractCall elapsedSeconds (runFn w) st
  (none, r.2)

/-- The whole scan entry point: `Downloader.__call__` running
`Downloader.run` over the chunks of `[l, u)`. -/
def downloaderEntry (f : Nat → FetchResult) (wr : Nat → Bool) (dir : String)
    (l u elapsedSeconds perThread maxOpenFile : Nat) (st : DState) :
    Option Nat × DState :=
  downloaderCall elapsedSeconds perThread maxOpenFile
    (fun w st0 => (scanRun f wr dir w st0 (pyRangeStep l u w)).1) st

/-- Python truthiness of an optional integer argument (`None` and `0` are
falsy). -/
def pyTruthy : Option Int → Bool
  | none => false
  | some v => v != 0

/-- `Downloader.__init__`'s bound handling: `if bound: self.BOUND = bound`. -/
def applyBound (override : Option Int) (dflt : Int) : Int :=
  if pyTruthy override then override.getD dflt else dflt

/-- The scan upper bound after `Downloader.__init__` (class default 520000). -/
def initUpperbound (ub : Option Int) : Int := applyBound ub 520000

/-- The scan lower bound after `Downloader.__init__` (class default 406000). -/
def initLowerbound (lb : Option Int) : Int := applyBound lb 406000

/-- The verbatim `AbstractDownloader.URLFMT` template string of the source. -/
def URLFMT : String :=
  "https://ucanassessm.s3.ap-south-1.amazonaws.com/Latest/{server_id}/{id}/{id}.png"

/-- Keyword-argument lookup for `str.format` (every field of `URLFMT` is
named, and all names passed are present, so the missing-key error path is
unreachable here and modelled as the empty string). -/
def lookupField (fields : List (String × String)) (name : String) : String :=
  match fields.lookup name with
  | some v => v
  | none => ""

/-- Generic model of Python `str.format` over the template's characters:
copy literal characters; at each `\x7b`, read the field name up to the
matching `\x7d` and splice in the looked-up argument. -/
def pyFormatAux (fields : List (String × String)) : List Char → List Char
  | [] => []
  | c :: rest =>
    if c = '{' then
      (lookupField fields (rest.takeWhile (fun d => d ≠ '}')).asString).data
        ++ pyFormatAux fields ((rest.dropWhile (fun d => d ≠ '}')).drop 1)
    else
      c :: pyFormatAux fields rest
termination_by l => l.length
decreasing_by
  · have h1 := (List.dropWhile_sublist (l := rest) (fun d => d ≠ '}')).length_le
    simp only [List.length_drop, List.length_cons]
    omega
  · simp

/-- Python `template.format(**fields)`. -/
def pyFormat (template : String) (fields : List (String × String)) : String :=
  (pyFormatAux fields template.data).asString

/-- One link of `Downloader.generate_links` /
`Watcher._thread`: `URLFMT.format(server_id=serverId, id=i)`. -/
def generateLink (serverId : String) (i : Nat) : String :=
  pyFormat URLFMT [("server_id", serverId), ("id", pyStr i)]

/-- `Downloader.generate_links(start, stop)`. -/
def generate_links (serverId : String) (start stop : Nat) : List String :=
  (List.range' start (stop - start)).map (generateLink serverId)

/-- The spec's template, written from its words: `https://<fixed-host>/Latest/
\x7bserverID\x7d/\x7bimageID\x7d/\x7bimageID\x7d.png` with both placeholders
substituted, the image id appearing twice. -/
def specTemplateURL (serverId imageId : String) : String :=
  "https://ucanassessm.s3.ap-south-1.amazonaws.com/Latest/" ++ serverId ++ "/"
    ++ imageId ++ "/" ++ imageId ++ ".png"

/-- `Watcher._thread`'s per-id subdirectory `os.path.join(downloadDir, str(watch_id))`. -/
def watcherSavedir (dir : String) (watchId : Nat) : String :=
  pyJoin dir (pyStr watchId)

/-- `Watcher._thread`'s file name, the f-string `str(watch_id) ++ "_" ++ str(loop_id) ++ ".png"`. -/
def watcherImagename (watchId loopId : Nat) : String :=
  pyStr watchId ++ "_" ++ pyStr loopId ++ ".png"

/-- The full path a successful watch poll persists to. -/
def watcherImagepath (dir : String) (watchId loopId : Nat) : String :=
  pyJoin (watcherSavedir dir watchId) (watcherImagename watchId loopId)

/-- `Watcher.run`'s loop body from a given `loop_id`, observed for a given
number of further iterations: the (watch id, loop id) spawn events, in spawn
order; each iteration spawns one worker per watch id, then `loop_id += 1`. -/
def watcherLoopFrom (watchIds : List Nat) (loopId : Nat) : Nat → List (Nat × Nat)
  | 0 => []
  | k + 1 => watchIds.map (fun w => (w, loopId)) ++ watcherLoopFrom watchIds (loopId + 1) k

/-- `Watcher.run` observed for `cycles` poll cycles: `loop_id` starts at 1. -/
def watcherRun (watchIds : List Nat) (cycles : Nat) : List (Nat × Nat) :=
  watcherLoopFrom watchIds 1 cycles

/-- Count of ids in `ids` whose fetch-and-persist attempt succeeds. -/
def successCount (f : Nat → FetchResult) (wr : Nat → Bool) (ids : List Nat) : Nat :=
  (ids.filter (fun i => succeeds (f i) (wr i))).length

/-- The counter value carried by either outcome of `download`. -/
def counterOf : Except DState (DState × Option String) → Nat
  | .ok (st, _) => st.numDownloads
  | .error st => st.numDownloads

/-- The Python return value of a `download` that did not raise. -/
def returnOf : Except DState (DState × Option String) → Option String
  | .ok (_, r) => r
  | .error _ => none

/-- The body carried by a response (0 for a transport error; never used in
that case). -/
def bodyOf : FetchResult → Nat
  | .transportError => 0
  | .response _ b => b

theorem download_of_raise {fetch : FetchResult} {wr : Bool} (p : String) (st : DState)
    (h : writeRaises fetch wr = true) : download fetch wr p st = .error st := by
  cases fetch with
  | transportError => simp [writeRaises] at h
  | response status body =>
    simp only [writeRaises, Bool.and_eq_true, beq_iff_eq, Bool.not_eq_true'] at h
    simp [download, h.1, h.2]

theorem download_of_succ {fetch : FetchResult} {wr : Bool} (p : String) (st : DState)
    (h : succeeds fetch wr = true) :
    download fetch wr p st =
      .ok ({ files := (p, bodyOf fetch) :: st.files,
             numDownloads := st.numDownloads + 1 }, some p) := by
  cases fetch with
  | transportError => simp [succeeds] at h
  | response status body =>
    simp only [succeeds, Bool.and_eq_true, beq_iff_eq] at h
    simp [download, h.1, h.2, bodyOf]

theorem download_of_skip {fetch : FetchResult} {wr : Bool} (p : String) (st : DState)
    (h1 : writeRaises fetch wr = false) (h2 : succeeds fetch wr = false) :
    download fetch wr p st = .ok (st, none) := by
  cases fetch with
  | transportError => rfl
  | response status body =>
    by_cases hs : status = 200
    · cases wr with
      | false => simp [writeRaises, hs] at h1
      | true => simp [succeeds, hs] at h2
    · simp [download, hs]

theorem threadRun_nil (f : Nat → FetchResult) (wr : Nat → Bool) (dir : String)
    (st : DState) : threadRun f wr dir st [] = (st, [], none) := rfl

theorem threadRun_cons_raise {f : Nat → FetchResult} {wr : Nat → Bool}
    (dir : String) (st : DState) (i : Nat) (rest : List Nat)
    (h : writeRaises (f i) (wr i) = true) :
    threadRun f wr dir st (i :: rest) = (st, [i], some i) := by
  simp [threadRun, download_of_raise _ _ h]

theorem threadRun_cons_succ {f : Nat → FetchResult} {wr : Nat → Bool}
    (dir : String) (st : DState) (i : Nat) (rest : List Nat)
    (h : succeeds (f i) (wr i) = true) :
    threadRun f wr dir st (i :: rest) =
      ((threadRun f wr dir
          { files := (scanImagepath dir i, bodyOf (f i)) :: st.files,
            numDownloads := st.numDownloads + 1 } rest).1,
       i :: (threadRun f wr dir
          { files := (scanImagepath dir i, bodyOf (f i)) :: st.files,
            numDownloads := st.numDownloads + 1 } rest).2.1,
       (threadRun f wr dir
          { files := (scanImagepath dir i, bodyOf (f i)) :: st.files,
            numDownloads := st.numDownloads + 1 } rest).2.2) := by
  simp [threadRun, download_of_succ _ _ h]

theorem threadRun_cons_skip {f : Nat → FetchResult} {wr : Nat → Bool}
    (dir : String) (st : DState) (i : Nat) (rest : List Nat)
    (h1 : writeRaises (f i) (wr i) = false) (h2 : succeeds (f i) (wr i) = false) :
    threadRun f wr dir st (i :: rest) =
      ((threadRun f wr dir st rest).1,
       i :: (threadRun f wr dir st rest).2.1,
       (threadRun f wr dir st rest).2.2) := by
  simp [threadRun, download_of_skip _ _ h1 h2]

/-- The worker's observable trace does not depend on the state it starts
from: the branch taken at each id is decided by the oracles alone. -/
theorem threadRun_snd_eq (f : Nat → FetchResult) (wr : Nat → Bool) (dir : String)
    (ids : List Nat) : ∀ st st' : DState,
    (threadRun f wr dir st ids).2 = (threadRun f wr dir st' ids).2 := by
  induction ids with
  | nil => intro st st'; rfl
  | cons i rest ih =>
    intro st st'
    by_cases hr : writeRaises (f i) (wr i) = true
    · rw [threadRun_cons_raise dir st i rest hr, threadRun_cons_raise dir st' i rest hr]
    · rw [Bool.not_eq_true] at hr
      by_cases hs : succeeds (f i) (wr i) = true
      · rw [threadRun_cons_succ dir st i rest hs, threadRun_cons_succ dir st' i rest hs]
        rw [ih _ _]
      · rw [Bool.not_eq_true] at hs
        rw [threadRun_cons_skip dir st i rest hr hs, threadRun_cons_skip dir st' i rest hr hs]
        rw [ih _ _]

theorem threadRun_trace (f : Nat → FetchResult) (wr : Nat → Bool) (dir : String)
    (ids : List Nat) (st : DState) :
    (threadRun f wr dir st ids).2 = threadTrace f wr dir ids :=
  threadRun_snd_eq f wr dir ids st ⟨[], 0⟩

theorem successCount_cons (f : Nat → FetchResult) (wr : Nat → Bool)
    (i : Nat) (ids : List Nat) :
    successCount f wr (i :: ids) =
      (if succeeds (f i) (wr i) = true then 1 else 0) + successCount f wr ids := by
  simp only [successCount, List.filter_cons]
  split <;> simp [Nat.add_comm]

/-- The counter after a worker runs: its start value plus one per successful
attempt among the ids the worker actually reached. -/
theorem threadRun_counter (f : Nat → FetchResult) (wr : Nat → Bool) (dir : String)
    (ids : List Nat) : ∀ st : DState,
    (threadRun f wr dir st ids).1.numDownloads =
      st.numDownloads + successCount f wr (threadRun f wr dir st ids).2.1 := by
  induction ids with
  | nil => intro st; simp [threadRun, successCount]
  | cons i rest ih =>
    intro st
    by_cases hr : writeRaises (f i) (wr i) = true
    · rw [threadRun_cons_raise dir st i rest hr]
      have hs : succeeds (f i) (wr i) = false := by
        cases hf : f i with
        | transportError => rfl
        | response status body =>
          rw [hf] at hr
          simp only [writeRaises, Bool.and_eq_true, beq_iff_eq, Bool.not_eq_true'] at hr
          simp [succeeds, hr.1, hr.2]
      simp [successCount, hs]
    · rw [Bool.not_eq_true] at hr
      by_cases hs : succeeds (f i) (wr i) = true
      · rw [threadRun_cons_succ dir st i rest hs]
        rw [successCount_cons, hs, ih]
        simp [Nat.add_assoc, Nat.add_comm 1 _, Nat.add_left_comm]
      · rw [Bool.not_eq_true] at hs
        rw [threadRun_cons_skip dir st i rest hr hs]
        rw [successCount_cons, hs, ih]
        simp

/-- A worker none of whose ids raises attempts exactly its whole chunk, in
the given order, and terminates normally. -/
theorem threadRun_no_raise (f : Nat → FetchResult) (wr : Nat → Bool) (dir : String)
    (ids : List Nat) (hno : ∀ i ∈ ids, writeRaises (f i) (wr i) = false) :
    ∀ st : DState, (threadRun f wr dir st ids).2 = (ids, none) := by
  induction ids with
  | nil => intro st; rfl
  | cons i rest ih =>
    intro st
    have hri : writeRaises (f i) (wr i) = false := hno i (by simp)
    have hrest : ∀ j ∈ rest, writeRaises (f j) (wr j) = false :=
      fun j hj => hno j (by simp [hj])
    by_cases hs : succeeds (f i) (wr i) = true
    · rw [threadRun_cons_succ dir st i rest hs]
      rw [threadRun_snd_eq f wr dir rest _ ⟨[], 0⟩]
      have h2 := ih hrest ⟨[], 0⟩
      rw [Prod.ext_iff] at h2
      simp only [h2.1, h2.2]
    · rw [Bool.not_eq_true] at hs
      rw [threadRun_cons_skip dir st i rest hri hs]
      have h2 := ih hrest st
      rw [Prod.ext_iff] at h2
      simp only [h2.1, h2.2]

/-- A worker whose first raising id is `j` attempts exactly the ids up to
and including `j`, then dies; the remainder of its chunk is never reached. -/
theorem threadRun_raise_at (f : Nat → FetchResult) (wr : Nat → Bool) (dir : String)
    (pre : List Nat) (j : Nat) (post : List Nat)
    (hpre : ∀ k ∈ pre, writeRaises (f k) (wr k) = false)
    (hj : writeRaises (f j) (wr j) = true) :
    ∀ st : DState, (threadRun f wr dir st (pre ++ j :: post)).2 = (pre ++ [j], some j) := by
  induction pre with
  | nil =>
    intro st
    rw [List.nil_append, threadRun_cons_raise dir st j post hj]
    rfl
  | cons i rest ih =>
    intro st
    have hri : writeRaises (f i) (wr i) = false := hpre i (by simp)
    have hrest : ∀ k ∈ rest, writeRaises (f k) (wr k) = false :=
      fun k hk => hpre k (by simp [hk])
    rw [List.cons_append]
    by_cases hs : succeeds (f i) (wr i) = true
    · rw [threadRun_cons_succ dir st i (rest ++ j :: post) hs]
      rw [threadRun_snd_eq f wr dir (rest ++ j :: post) _ ⟨[], 0⟩]
      have h2 := ih hrest ⟨[], 0⟩
      rw [Prod.ext_iff] at h2
      simp only [h2.1, h2.2, List.cons_append]
    · rw [Bool.not_eq_true] at hs
      rw [threadRun_cons_skip dir st i (rest ++ j :: post) hri hs]
      have h2 := ih hrest st
      rw [Prod.ext_iff] at h2
      simp only [h2.1, h2.2, List.cons_append]

theorem scanRun_nil (f : Nat → FetchResult) (wr : Nat → Bool) (dir : String)
    (w : Nat) (st : DState) : scanRun f wr dir w st [] = (st, []) := rfl

theorem scanRun_cons (f : Nat → FetchResult) (wr : Nat → Bool) (dir : String)
    (w : Nat) (st : DState) (s : Nat) (rest : List Nat) :
    scanRun f wr dir w st (s :: rest) =
      ((scanRun f wr dir w (threadRun f wr dir st (chunkIds s w)).1 rest).1,
       (threadRun f wr dir st (chunkIds s w)).2 ::
         (scanRun f wr dir w (threadRun f wr dir st (chunkIds s w)).1 rest).2) := by
  simp [scanRun]

/-- The orchestrator yields exactly one trace per chunk, in spawn order, and
each worker's trace is determined by the oracles on its own chunk alone:
failures elsewhere (in siblings or in earlier chunks) cannot change it. -/
theorem scanRun_traces (f : Nat → FetchResult) (wr : Nat → Bool) (dir : String)
    (w : Nat) (starts : List Nat) : ∀ st : DState,
    (scanRun f wr dir w st starts).2 =
      starts.map (fun s => threadTrace f wr dir (chunkIds s w)) := by
  induction starts with
  | nil => intro st; rfl
  | cons s rest ih =>
    intro st
    rw [scanRun_cons, ih _, threadRun_trace]
    rfl

/-- The counter after the whole run: its start value plus one per successful
attempt, summed over every worker's attempted ids. -/
theorem scanRun_counter (f : Nat → FetchResult) (wr : Nat → Bool) (dir : String)
    (w : Nat) (starts : List Nat) : ∀ st : DState,
    (scanRun f wr dir w st starts).1.numDownloads =
      st.numDownloads +
        ((scanRun f wr dir w st starts).2.map (fun r => successCount f wr r.1)).sum := by
  induction starts with
  | nil => intro st; simp [scanRun]
  | cons s rest ih =>
    intro st
    rw [scanRun_cons]
    simp only [List.map_cons, List.sum_cons]
    rw [ih _, threadRun_counter]
    omega

/-- Ceiling bound: `numChunks` chunks of width `w` cover at least `u - l` ids. -/
theorem le_numChunks_mul (l u w : Nat) (hw : 0 < w) : u - l ≤ numChunks l u w * w := by
  unfold numChunks
  have h1 := Nat.div_add_mod (u - l + w - 1) w
  have h2 := Nat.mod_lt (u - l + w - 1) hw
  rw [Nat.mul_comm]
  generalize hq : w * ((u - l + w - 1) / w) = q at h1 ⊢
  omega

/-- The ids of a scan run, concatenated in spawn order, are exactly the
consecutive integers from `l` of total length `numChunks * w`: consecutive
same-width chunks, no gap, no overlap. -/
theorem allScanIds_eq (l u w : Nat) :
    allScanIds l u w = List.range' l (numChunks l u w * w) := by
  unfold allScanIds pyRangeStep
  generalize numChunks l u w = n
  induction n generalizing l with
  | zero => simp
  | succ n ih =>
    rw [List.range'_succ]
    simp only [List.flatMap_cons]
    rw [ih (l + w)]
    have happ := List.range'_append l w (n * w) 1
    simp only [Nat.one_mul] at happ
    rw [show (n + 1) * w = n * w + w by ring, ← happ]
    rfl

/-- The watch loop from `loop_id = s`, run for `k` further cycles, spawns
per cycle number `s, s+1, ...` one worker per watch id, in order. -/
theorem watcherLoopFrom_eq (ids : List Nat) (k : Nat) : ∀ s : Nat,
    watcherLoopFrom ids s k =
      (List.range' s k).flatMap (fun n => ids.map (fun w => (w, n))) := by
  induction k with
  | zero => intro s; rfl
  | succ k ih =>
    intro s
    rw [List.range'_succ]
    simp only [List.flatMap_cons, watcherLoopFrom, ih (s + 1)]

theorem data_asString (l : List Char) : l.asString.data = l := rfl

theorem digitChar_inj_lt :
    ∀ a : Nat, a < 10 → ∀ b : Nat, b < 10 → digitChar a = digitChar b → a = b := by
  decide

theorem pyStrAux_ne_nil (n : Nat) : pyStrAux n ≠ [] := by
  unfold pyStrAux
  split
  · simp
  · simp

theorem pyStrAux_lt (n : Nat) (h : n < 10) : pyStrAux n = [digitChar n] := by
  rw [pyStrAux]
  rw [if_pos h]

theorem pyStrAux_ge (n : Nat) (h : ¬ n < 10) :
    pyStrAux n = pyStrAux (n / 10) ++ [digitChar (n % 10)] := by
  rw [pyStrAux]
  rw [if_neg h]

/-- Decimal rendering is injective: distinct nonnegative integers have
distinct `str()` images. -/
theorem pyStrAux_inj : ∀ n m : Nat, pyStrAux n = pyStrAux m → n = m := by
  intro n
  induction n using Nat.strong_induction_on with
  | _ n ih =>
    intro m h
    by_cases hn : n < 10
    · by_cases hm : m < 10
      · rw [pyStrAux_lt n hn, pyStrAux_lt m hm] at h
        exact digitChar_inj_lt n hn m hm (List.cons.inj h).1
      · exfalso
        rw [pyStrAux_lt n hn, pyStrAux_ge m hm] at h
        have hlen := congrArg List.length h
        have hne := pyStrAux_ne_nil (m / 10)
        simp only [List.length_cons, List.length_nil, List.length_append] at hlen
        cases hcases : pyStrAux (m / 10) with
        | nil => exact hne hcases
        | cons c cs => rw [hcases] at hlen; simp at hlen
    · by_cases hm : m < 10
      · exfalso
        rw [pyStrAux_ge n hn, pyStrAux_lt m hm] at h
        have hlen := congrArg List.length h
        have hne := pyStrAux_ne_nil (n / 10)
        simp only [List.length_cons, List.length_nil, List.length_append] at hlen
        cases hcases : pyStrAux (n / 10) with
        | nil => exact hne hcases
        | cons c cs => rw [hcases] at hlen; simp at hlen
      · rw [pyStrAux_ge n hn, pyStrAux_ge m hm] at h
        have hrev := congrArg List.reverse h
        simp only [List.reverse_append, List.reverse_cons, List.reverse_nil,
          List.nil_append, List.cons_append] at hrev
        have hdig := (List.cons.inj hrev).1
        have htail := (List.cons.inj hrev).2
        have hmod : n % 10 = m % 10 :=
          digitChar_inj_lt _ (Nat.mod_lt _ (by omega)) _ (Nat.mod_lt _ (by omega)) hdig
        have hdiv : n / 10 = m / 10 := by
          have hlist : pyStrAux (n / 10) = pyStrAux (m / 10) :=
            List.reverse_inj.mp htail
          exact ih (n / 10) (Nat.div_lt_self (by omega) (by omega)) (m / 10) hlist
        omega

theorem pyStr_inj {n m : Nat} (h : pyStr n = pyStr m) : n = m := by
  have hd := congrArg String.data h
  simp only [pyStr, data_asString] at hd
  exact pyStrAux_inj n m hd

theorem pyFormatAux_nil (fields : List (String × String)) :
    pyFormatAux fields [] = [] := by
  simp [pyFormatAux]

/-- `str.format` copies a brace-free literal segment verbatim. -/
theorem pyFormatAux_lit (fields : List (String × String)) (lit rest : List Char)
    (h : ∀ c ∈ lit, c ≠ '{') :
    pyFormatAux fields (lit ++ rest) = lit ++ pyFormatAux fields rest := by
  induction lit with
  | nil => simp
  | cons c cs ih =>
    have hc : c ≠ '{' := h c (by simp)
    rw [List.cons_append]
    simp only [pyFormatAux, if_neg hc]
    rw [ih (fun d hd => h d (by simp [hd]))]
    rfl

theorem takeWhile_fieldname (name rest : List Char) (h : ∀ c ∈ name, c ≠ '}') :
    (name ++ '}' :: rest).takeWhile (fun d => d ≠ '}') = name := by
  induction name with
  | nil => simp [List.takeWhile_cons]
  | cons c cs ihn =>
    have hc : c ≠ '}' := h c (by simp)
    rw [List.cons_append, List.takeWhile_cons_of_pos (by simp [hc])]
    rw [ihn (fun d hd => h d (by simp [hd]))]

theorem dropWhile_fieldname (name rest : List Char) (h : ∀ c ∈ name, c ≠ '}') :
    (name ++ '}' :: rest).dropWhile (fun d => d ≠ '}') = '}' :: rest := by
  induction name with
  | nil => simp [List.dropWhile_cons]
  | cons c cs ihn =>
    have hc : c ≠ '}' := h c (by simp)
    rw [List.cons_append, List.dropWhile_cons_of_pos (by simp [hc])]
    exact ihn (fun d hd => h d (by simp [hd]))

/-- `str.format` substitutes a field: the name is read up to the closing
brace and the keyword argument is spliced in. -/
theorem pyFormatAux_field (fields : List (String × String)) (name rest : List Char)
    (h : ∀ c ∈ name, c ≠ '}') :
    pyFormatAux fields ('{' :: (name ++ '}' :: rest)) =
      (lookupField fields name.asString).data ++ pyFormatAux fields rest := by
  simp only [pyFormatAux, takeWhile_fieldname name rest h, dropWhile_fieldname name rest h,
    List.drop_succ_cons, List.drop_zero, if_true]

/-- A trailing brace-free literal segment is copied verbatim. -/
theorem pyFormatAux_all_lit (fields : List (String × String)) (lit : List Char)
    (h : ∀ c ∈ lit, c ≠ '{') : pyFormatAux fields lit = lit := by
  have := pyFormatAux_lit fields lit [] h
  simpa [pyFormatAux_nil] using this

/-- Formatting the source's verbatim `URLFMT` template yields exactly the
spec's template with both placeholders substituted (the image id twice). -/
theorem generateLink_eq_spec (sid : String) (i : Nat) :
    generateLink sid i = specTemplateURL sid (pyStr i) := by
  unfold generateLink pyFormat
  have hd : URLFMT.data =
      "https://ucanassessm.s3.ap-south-1.amazonaws.com/Latest/".data
        ++ ('{' :: ("server_id".data ++ '}' ::
          ("/".data ++ ('{' :: ("id".data ++ '}' ::
            ("/".data ++ ('{' :: ("id".data ++ '}' :: ".png".data)))))))) := by
    decide
  rw [hd]
  rw [pyFormatAux_lit _ _ _ (by decide)]
  rw [pyFormatAux_field _ _ _ (by decide)]
  rw [pyFormatAux_lit _ _ _ (by decide)]
  rw [pyFormatAux_field _ _ _ (by decide)]
  rw [pyFormatAux_lit _ _ _ (by decide)]
  rw [pyFormatAux_field _ _ _ (by decide)]
  rw [pyFormatAux_all_lit _ _ (by decide)]
  have h1 : lookupField [("server_id", sid), ("id", pyStr i)] ("server_id".data).asString
      = sid := rfl
  have h2 : lookupField [("server_id", sid), ("id", pyStr i)] ("id".data).asString
      = pyStr i := rfl
  rw [h1, h2]
  apply String.ext
  simp [specTemplateURL, String.data_append, data_asString, List.append_assoc]

/-- Distinct poll cycles of the same watch id write to distinct paths. -/
theorem watcherImagepath_inj (dir : String) (w : Nat) {n m : Nat}
    (h : watcherImagepath dir w n = watcherImagepath dir w m) : n = m := by
  have hd := congrArg String.data h
  simp only [watcherImagepath, watcherSavedir, watcherImagename, pyJoin, pyStr,
    String.data_append, data_asString, List.append_assoc] at hd
  have h1 := List.append_cancel_left hd
  have h2 := List.append_cancel_left h1
  have h3 := List.append_cancel_left h2
  have h4 := List.append_cancel_left h3
  have h5 := List.append_cancel_left h4
  have h6 := List.append_cancel_left h5
  exact pyStrAux_inj n m (List.append_cancel_right h6)

theorem succeeds_of_raise {fetch : FetchResult} {wr : Bool}
    (h : writeRaises fetch wr = true) : succeeds fetch wr = false := by
  cases fetch with
  | transportError => rfl
  | response status body =>
    simp only [writeRaises, Bool.and_eq_true, beq_iff_eq, Bool.not_eq_true'] at h
    simp [succeeds, h.1, h.2]

/-!
## The claims
-/

/-- C5: for all serverID and imageID, the URL builder's output exactly
matches the fixed template
`https://ucanassessm.s3.ap-south-1.amazonaws.com/Latest/...` with both
placeholders substituted (the image id appearing twice), and building twice
from the same inputs yields identical URLs; the builder is a pure total
function of its inputs with no failure mode. -/
theorem C5_url_builder (sid : String) (i : Nat) :
    generateLink sid i = specTemplateURL sid (pyStr i)
      ∧ generateLink sid i = generateLink sid i :=
  ⟨generateLink_eq_spec sid i, rfl⟩

/-- C3: one fetch-and-persist attempt: a transport-level error yields a
swallowed, non-fatal `None` return with no write and no counter change; a
completed round trip with any status other than 200 yields the NotFound
outcome — `None`, no file written, no counter change; and, when the write
can complete, the saved path is returned exactly when the status is 200. -/
theorem C3_fetch_outcomes (wr : Bool) (p : String) (st : DState) (s b : Nat) :
    download .transportError wr p st = .ok (st, none)
    ∧ (s ≠ 200 → download (.response s b) wr p st = .ok (st, none))
    ∧ (wr = true → (returnOf (download (.response s b) wr p st) = some p ↔ s = 200)) := by
  refine ⟨rfl, fun hs => by simp [download, hs], fun hw => ?_⟩
  subst hw
  by_cases hs : s = 200
  · subst hs
    simp [download, returnOf]
  · simp [download, hs, returnOf]

theorem C3_fetch_outcomes_witness :
    download .transportError true "p" ⟨[], 0⟩ = .ok (⟨[], 0⟩, none)
    ∧ download (.response 404 7) true "p" ⟨[], 0⟩ = .ok (⟨[], 0⟩, none)
    ∧ (returnOf (download (.response 404 7) true "p" ⟨[], 0⟩) = some "p"
        ↔ (404 : Nat) = 200) := by
  have h := C3_fetch_outcomes true "p" ⟨[], 0⟩ 404 7
  exact ⟨h.1, h.2.1 (by decide), h.2.2 rfl⟩

/-- C4: on entry to a scan run the effective chunk width is
`max(per_thread, MAX_OPEN_FILE)`, where `MAX_OPEN_FILE` is the host's
open-file-descriptor limit with the hardcoded fallback 1200 where the query
is unavailable; the entry point hands exactly this width to the run, and the
maximum is a floor: every configured value below the host limit is silently
ineffective. -/
theorem C4_chunk_width_floor (pt q elapsed : Nat) (st : DState)
    (runFn : Nat → DState → DState) :
    MAX_OPEN_FILE none = 1200
    ∧ MAX_OPEN_FILE (some q) = q
    ∧ downloaderCall elapsed pt (MAX_OPEN_FILE (some q)) runFn st
        = (none, runFn (effectivePerThread pt q) { st with numDownloads := 0 })
    ∧ effectivePerThread pt q = max pt q
    ∧ (pt < q → effectivePerThread pt q = q)
    ∧ (q ≤ pt → effectivePerThread pt q = pt) := by
  refine ⟨rfl, rfl, rfl, rfl, fun h => ?_, fun h => ?_⟩
  · simp [effectivePerThread, Nat.max_eq_right (Nat.le_of_lt h)]
  · simp [effectivePerThread, Nat.max_eq_left h]

theorem C4_chunk_width_floor_witness :
    effectivePerThread 50 1024 = 1024 ∧ effectivePerThread 2000 1024 = 2000 :=
  ⟨(C4_chunk_width_floor 50 1024 0 ⟨[], 0⟩ (fun _ s => s)).2.2.2.2.1 (by decide),
   (C4_chunk_width_floor 2000 1024 0 ⟨[], 0⟩ (fun _ s => s)).2.2.2.2.2 (by decide)⟩

/-- C9: constructing the scan downloader with an upper or lower bound of 0
(or None) silently ignores the override — the bound is applied only when
truthy — so the class defaults 520000 / 406000 are used; every nonzero
supplied bound is used as given. -/
theorem C9_falsy_bound_ignored (v : Int) :
    initUpperbound (some 0) = 520000
    ∧ initUpperbound none = 520000
    ∧ initLowerbound (some 0) = 406000
    ∧ initLowerbound none = 406000
    ∧ (v ≠ 0 → initUpperbound (some v) = v ∧ initLowerbound (some v) = v) := by
  refine ⟨rfl, rfl, rfl, rfl, fun hv => ?_⟩
  constructor <;> simp [initUpperbound, initLowerbound, applyBound, pyTruthy, hv]

theorem C9_falsy_bound_ignored_witness :
    initUpperbound (some 7) = 7 ∧ initLowerbound (some 7) = 7 :=
  (C9_falsy_bound_ignored 7).2.2.2.2 (by decide)

/-- C1 counterexample: lower 0, upper 3, width 2. The workers process the
chunks `[0,1]` and `[2,3]`: their union `[0,1,2,3]` is not `[0, 3)` — id 3,
beyond the upper bound, is also processed — and the last chunk has width 2,
not `(3 - 0) mod 2 = 1` as the claim requires. -/
theorem C1_counterexample :
    allScanIds 0 3 2 ≠ List.range' 0 (3 - 0)
    ∧ (chunkIds 2 2).length ≠ (3 - 0) % 2 := by
  decide

/-- C1 amended: for every lower bound, upper bound and chunk width `w > 0`,
the orchestrator partitions the ids into consecutive chunks ALL of width `w`
starting at `lower`: their union, in order, is the gapless, overlap-free,
strictly ascending run of consecutive integers
`[lower, lower + numChunks·w)`. This covers every id of `[lower, upper)` but
(when `w` does not divide `upper - lower`) the last chunk keeps full width
`w` and overshoots `upper`, instead of the claimed width
`(upper-lower) mod w`. Each worker whose attempts raise no exception
processes exactly the ids of its chunk, in ascending order. -/
theorem C1_amended_partition (l u w : Nat) (hw : 0 < w) :
    allScanIds l u w = List.range' l (numChunks l u w * w)
    ∧ (∀ i, l ≤ i → i < u → i ∈ allScanIds l u w)
    ∧ List.Pairwise (· < ·) (allScanIds l u w)
    ∧ (∀ s ∈ pyRangeStep l u w,
        chunkIds s w = List.range' s w ∧ (chunkIds s w).length = w
          ∧ List.Pairwise (· < ·) (chunkIds s w))
    ∧ (∀ (f : Nat → FetchResult) (wr : Nat → Bool) (dir : String) (st : DState),
        (∀ i ∈ allScanIds l u w, writeRaises (f i) (wr i) = false) →
          (scanRun f wr dir w st (pyRangeStep l u w)).2
            = (pyRangeStep l u w).map (fun s => (chunkIds s w, none))) := by
  refine ⟨allScanIds_eq l u w, ?_, ?_, ?_, ?_⟩
  · intro i hl hu
    rw [allScanIds_eq]
    rw [List.mem_range'_1]
    have hcov := le_numChunks_mul l u w hw
    omega
  · rw [allScanIds_eq]
    exact List.pairwise_lt_range' l (numChunks l u w * w)
  · intro s _
    exact ⟨rfl, List.length_range' s 1 w, List.pairwise_lt_range' s w⟩
  · intro f wr dir st hno
    rw [scanRun_traces]
    apply List.map_congr_left
    intro s hs
    have hsub : ∀ i ∈ chunkIds s w, writeRaises (f i) (wr i) = false := by
      intro i hi
      exact hno i (List.mem_flatMap.mpr ⟨s, hs, hi⟩)
    unfold threadTrace
    rw [threadRun_no_raise f wr dir (chunkIds s w) hsub]

theorem C1_amended_partition_witness :
    allScanIds 0 3 2 = List.range' 0 (numChunks 0 3 2 * 2)
    ∧ 2 ∈ allScanIds 0 3 2
    ∧ (scanRun (fun _ => .transportError) (fun _ => true) "d" 2 ⟨[], 0⟩
          (pyRangeStep 0 3 2)).2
        = (pyRangeStep 0 3 2).map (fun s => (chunkIds s 2, none)) := by
  have h := C1_amended_partition 0 3 2 (by decide)
  exact ⟨h.1, h.2.1 2 (by decide) (by decide),
         h.2.2.2.2 (fun _ => .transportError) (fun _ => true) "d" ⟨[], 0⟩
           (fun i _ => rfl)⟩

/-- C2 counterexample: scan `[0, 4)` with width 2, every fetch returning
status 200, the storage write failing only for id 0 — mid-chunk for the
first worker's chunk `[0,1]`. That worker attempts only `[0]` and dies: the
remaining id 1 of its chunk is NOT attempted, contrary to the claim; the
sibling worker still processes its whole chunk `[2,3]` and the orchestrator
collects both workers' traces. -/
theorem C2_counterexample :
    (scanRun (fun _ => .response 200 7) (fun i => decide (i ≠ 0)) "d" 2 ⟨[], 0⟩
        (pyRangeStep 0 4 2)).2 = [([0], some 0), ([2, 3], none)]
    ∧ 1 ∉ ([0] : List Nat) := by
  refine ⟨rfl, by decide⟩

/-- C2 amended: a storage-write failure for one id mid-chunk propagates out
of the persist step and terminates that worker: the chunk ids before the
failing id are attempted, the failing id is the last attempted, and the
remaining ids of that chunk are NOT attempted (the claim wrongly said they
are). The failure is isolated to that worker: every worker's trace is a
function of the oracles on its own chunk alone, and the orchestrator still
completes, collecting one trace per chunk. -/
theorem C2_amended_persist_failure (f : Nat → FetchResult) (wr : Nat → Bool)
    (dir : String) (w : Nat) (st : DState) (starts : List Nat)
    (pre : List Nat) (j : Nat) (post : List Nat)
    (hpre : ∀ k ∈ pre, writeRaises (f k) (wr k) = false)
    (hj : writeRaises (f j) (wr j) = true) :
    (scanRun f wr dir w st starts).2
        = starts.map (fun s => threadTrace f wr dir (chunkIds s w))
    ∧ (threadRun f wr dir st (pre ++ j :: post)).2 = (pre ++ [j], some j) :=
  ⟨scanRun_traces f wr dir w starts st,
   threadRun_raise_at f wr dir pre j post hpre hj st⟩

theorem C2_amended_persist_failure_witness :
    (scanRun (fun _ => .response 200 7) (fun i => decide (i ≠ 0)) "d" 2 ⟨[], 0⟩
        [0, 2]).2
      = [0, 2].map (fun s =>
          threadTrace (fun _ => .response 200 7) (fun i => decide (i ≠ 0)) "d"
            (chunkIds s 2))
    ∧ (threadRun (fun _ => .response 200 7) (fun i => decide (i ≠ 0)) "d"
        ⟨[], 0⟩ ([] ++ 0 :: [1])).2 = ([] ++ [0], some 0) :=
  C2_amended_persist_failure (fun _ => .response 200 7) (fun i => decide (i ≠ 0))
    "d" 2 ⟨[], 0⟩ [0, 2] [] 0 [1]
    (fun k hk => absurd hk (List.not_mem_nil k)) (by decide)

/-- C6: the download counter never decreases — per attempt and over a whole
run; one attempt increments it exactly once when the attempt succeeds and
leaves it unchanged on any failure (network error, non-200 status, or write
failure); when the counter steps, the written file is already recorded in
the resulting state (the increment happens only after the write completed);
and over a run the final counter is the start value plus one per successful
persisted download. -/
theorem C6_counter_invariants (fetch : FetchResult) (wrb : Bool) (p : String)
    (st : DState) (f : Nat → FetchResult) (wr : Nat → Bool) (dir : String)
    (w : Nat) (starts : List Nat) :
    counterOf (download fetch wrb p st)
        = st.numDownloads + (if succeeds fetch wrb = true then 1 else 0)
    ∧ st.numDownloads ≤ counterOf (download fetch wrb p st)
    ∧ (∀ st' r, download fetch wrb p st = .ok (st', r) →
        st'.numDownloads = st.numDownloads + 1 →
          ∃ bd, st'.files = (p, bd) :: st.files)
    ∧ st.numDownloads ≤ (scanRun f wr dir w st starts).1.numDownloads
    ∧ (scanRun f wr dir w st starts).1.numDownloads
        = st.numDownloads
            + ((scanRun f wr dir w st starts).2.map
                (fun r => successCount f wr r.1)).sum := by
  have hstep : counterOf (download fetch wrb p st)
      = st.numDownloads + (if succeeds fetch wrb = true then 1 else 0) := by
    by_cases hr : writeRaises fetch wrb = true
    · rw [download_of_raise p st hr, succeeds_of_raise hr]
      simp [counterOf]
    · rw [Bool.not_eq_true] at hr
      by_cases hs : succeeds fetch wrb = true
      · rw [download_of_succ p st hs, hs]
        simp [counterOf]
      · rw [Bool.not_eq_true] at hs
        rw [download_of_skip p st hr hs, hs]
        simp [counterOf]
  refine ⟨hstep, by omega, ?_, ?_, scanRun_counter f wr dir w starts st⟩
  · intro st' r hok hinc
    by_cases hr : writeRaises fetch wrb = true
    · rw [download_of_raise p st hr] at hok
      exact absurd hok (by simp)
    · rw [Bool.not_eq_true] at hr
      by_cases hs : succeeds fetch wrb = true
      · rw [download_of_succ p st hs] at hok
        simp only [Except.ok.injEq, Prod.mk.injEq] at hok
        exact ⟨bodyOf fetch, by rw [← hok.1]⟩
      · rw [Bool.not_eq_true] at hs
        rw [download_of_skip p st hr hs] at hok
        simp only [Except.ok.injEq, Prod.mk.injEq] at hok
        rw [← hok.1] at hinc
        omega
  · rw [scanRun_counter f wr dir w starts st]
    omega

theorem C6_counter_invariants_witness :
    counterOf (download (.response 200 7) true "p" ⟨[], 3⟩)
        = 3 + (if succeeds (.response 200 7) true = true then 1 else 0)
    ∧ (∃ bd, ([("p", 7)] : List (String × Nat)) = ("p", bd) :: []) := by
  have h := C6_counter_invariants (.response 200 7) true "p" ⟨[], 3⟩
    (fun _ => .transportError) (fun _ => true) "d" 2 []
  exact ⟨h.1, h.2.2.1 ⟨[("p", 7)], 4⟩ (some "p") rfl rfl⟩

/-- C7: watch poll cycles are numbered starting at 1 (a k-cycle observation
spawns, per cycle n = 1..k in order, one worker per watch id), a successful
poll of id `w` in cycle `n` persists to `dir/<w>/<w>_<n>.png` — inside the
subdirectory named after the id — and distinct cycles of the same id yield
distinct paths, so no snapshot is ever overwritten. -/
theorem C7_watch_cycle_paths (ids : List Nat) (k : Nat) (dir : String)
    (w n m : Nat) :
    watcherRun ids k = (List.range' 1 k).flatMap (fun c => ids.map (fun i => (i, c)))
    ∧ watcherImagepath dir w n
        = dir ++ "/" ++ pyStr w ++ "/" ++ (pyStr w ++ "_" ++ pyStr n ++ ".png")
    ∧ (n ≠ m → watcherImagepath dir w n ≠ watcherImagepath dir w m) := by
  refine ⟨watcherLoopFrom_eq ids k 1, ?_,
    fun hnm heq => hnm (watcherImagepath_inj dir w heq)⟩
  apply String.ext
  simp [watcherImagepath, watcherSavedir, watcherImagename, pyJoin,
    String.data_append, List.append_assoc]

theorem C7_watch_cycle_paths_witness :
    watcherRun [42] 2 = [(42, 1), (42, 2)]
    ∧ watcherImagepath "Makaut" 42 1 ≠ watcherImagepath "Makaut" 42 2 := by
  have h := C7_watch_cycle_paths [42] 2 "Makaut" 42 1 2
  refine ⟨?_, h.2.2 (by decide)⟩
  rw [h.1]
  rfl

/-- C8 (code bug): `AbstractDownloader.__call__` does return the elapsed
wall-clock seconds to its caller (first conjunct) — but the scan entry point
`Downloader.__call__` drops that return value: it has no `return` statement
(despite its `-> int` annotation), so every scan run hands Python `None`
back instead of the elapsed time, and the `__main__` summary, which formats
the returned value with `%d`, cannot be printed for a scan. -/
theorem C8_scan_entry_returns_none :
    (abstractCall 5 (fun st => st) ⟨[], 0⟩).1 = 5
    ∧ (downloaderEntry (fun _ => .response 200 7) (fun _ => true) "d" 0 4 5 2 2
        ⟨[], 0⟩).1 = none :=
  ⟨rfl, rfl⟩

/-- C10: every entry-point invocation resets the shared counter to 0 before
the run starts, so the count observable afterwards equals the number of
successful downloads of that run alone — independent of whatever counter
value a previous run of the same object left behind. -/
theorem C10_counter_reset (f : Nat → FetchResult) (wr : Nat → Bool)
    (dir : String) (l u elapsed pt mof : Nat) (files : List (String × Nat))
    (c : Nat) (runFn : DState → DState) (st : DState) :
    (abstractCall elapsed runFn st).2 = runFn { st with numDownloads := 0 }
    ∧ (downloaderEntry f wr dir l u elapsed pt mof ⟨files, c⟩).2.numDownloads
        = (downloaderEntry f wr dir l u elapsed pt mof ⟨files, 0⟩).2.numDownloads
    ∧ (downloaderEntry f wr dir l u elapsed pt mof ⟨files, c⟩).2.numDownloads
        = ((scanRun f wr dir (effectivePerThread pt mof) ⟨files, 0⟩
              (pyRangeStep l u (effectivePerThread pt mof))).2.map
            (fun r => successCount f wr r.1)).sum := by
  refine ⟨rfl, rfl, ?_⟩
  show (scanRun f wr dir (effectivePerThread pt mof) ⟨files, 0⟩
          (pyRangeStep l u (effectivePerThread pt mof))).1.numDownloads = _
  simpa using scanRun_counter f wr dir (effectivePerThread pt mof)
    (pyRangeStep l u (effectivePerThread pt mof)) ⟨files, 0⟩

end Makaut
